import Mathlib

/-!
Verification of the inventory-service CRUD core
(`src/inventory-service/app.py`).

The store is the module-level list `inventory` of Python dicts; records are
dicts with string keys and JSON scalar values.  We embed dicts as ordered
association lists (Python dicts preserve insertion order), JSON scalars as an
inductive `Value`, and each Flask handler body as a pure function from the
store (plus the request payload and the current timestamp, which the code
reads from `datetime.utcnow()`) to an HTTP-level result and the new store.
-/

namespace Inventory

/-- JSON scalar values as they occur in request payloads and records.
`VOther` stands for any other JSON value (lists, objects, floats). -/
inductive Value where
  | VInt : Int → Value
  | VBool : Bool → Value
  | VStr : String → Value
  | VNull : Value
  | VOther : Nat → Value
  deriving DecidableEq

open Value

/-- Python `isinstance(x, int)`; `bool` is a subclass of `int` in Python. -/
def Value.isInstInt : Value → Bool
  | VInt _ => true
  | VBool _ => true
  | _ => false

/-- Python `isinstance(x, str)`. -/
def Value.isInstStr : Value → Bool
  | VStr _ => true
  | _ => false

/-- Numeric value of an int-like Python value (`True == 1`, `False == 0`).
Only used where `isinstance(x, int)` already holds. -/
def Value.toInt : Value → Int
  | VInt n => n
  | VBool b => if b then 1 else 0
  | _ => 0

/-- String payload of a Python `str`; only used where `isinstance(x, str)`
already holds. -/
def Value.toStr : Value → String
  | VStr s => s
  | _ => ""

/-- Python `==` between scalar values: numbers compare by numeric value
(so `True == 1`), strings by content; distinct kinds are unequal. -/
def Value.pyEq : Value → Value → Bool
  | VInt a, VInt b => a == b
  | VInt a, VBool b => a == (if b then (1 : Int) else 0)
  | VBool a, VInt b => (if a then (1 : Int) else 0) == b
  | VBool a, VBool b => a == b
  | VStr a, VStr b => a == b
  | VNull, VNull => true
  | _, _ => false

/-- The whitespace characters Python `str.strip()` removes (ASCII range). -/
def isPySpace (c : Char) : Bool :=
  c = ' ' || c = '\t' || c = '\n' || c = '\r' || c = '\x0b' || c = '\x0c'

/-- Python `s.strip()`: drop leading and trailing whitespace. -/
def pyStrip (s : String) : String :=
  String.mk (((s.data.dropWhile isPySpace).reverse.dropWhile isPySpace).reverse)

/-- A Python dict with string keys, as an insertion-ordered association list.
Dicts built by the code never have duplicate keys. -/
abbrev Dict := List (String × Value)

/-- Python `d[k]` / `k in d` lookup: first (unique) binding of `k`. -/
def Dict.lookup : Dict → String → Option Value
  | [], _ => none
  | (k', v) :: rest, k => if k' = k then some v else Dict.lookup rest k

/-- Python `k in d`. -/
def Dict.contains (d : Dict) (k : String) : Bool := (Dict.lookup d k).isSome

/-- Python `d[k]` where the key is known to be present (`VNull` default is
never reached by the code, which guards every access). -/
def Dict.get (d : Dict) (k : String) : Value := (Dict.lookup d k).getD VNull

/-- Python `d[k] = v`: replace in place if the key exists (keeping its
position), otherwise append the new binding. -/
def Dict.set : Dict → String → Value → Dict
  | [], k, v => [(k, v)]
  | (k', v') :: rest, k, v =>
      if k' = k then (k', v) :: rest else (k', v') :: Dict.set rest k v

/-- One direction of Python dict `==`: every binding of `a` is matched in
`b`. -/
def Dict.subEq (a b : Dict) : Bool :=
  a.all fun p =>
    match Dict.lookup b p.1 with
    | some v => p.2.pyEq v
    | none => false

/-- Python `==` on dicts: same keys, `==`-equal values (order-insensitive). -/
def Dict.pyEq (a b : Dict) : Bool := Dict.subEq a b && Dict.subEq b a

/-- `validate_item_data(data)` (app.py lines 35-51).  `data` is
`request.get_json()`: `none` models Python `None`; an empty dict is falsy in
Python, so it also hits the `if not data` branch. -/
def validate_item_data (data : Option Dict) : Bool × String :=
  match data with
  | none => (false, "No data provided")
  | some d =>
    if d.isEmpty then (false, "No data provided")
    else if ! Dict.contains d "name" then (false, "Missing required field: name")
    else if ! Dict.contains d "stock" then (false, "Missing required field: stock")
    else if ! (Dict.get d "stock").isInstInt || (Dict.get d "stock").toInt < 0 then
      (false, "Stock must be a non-negative integer")
    else if ! (Dict.get d "name").isInstStr
        || (pyStrip (Dict.get d "name").toStr).length == 0 then
      (false, "Name must be a non-empty string")
    else (true, "Valid")

/-- Outcome of a handler, at the granularity the claims need:
`ok item` is a 2xx response carrying the record, `validationError msg` is the
400 `{"error": msg}` response, `notFound` the 404 `{"error": "Item not
found"}` response. -/
inductive ApiResult where
  | ok : Dict → ApiResult
  | validationError : String → ApiResult
  | notFound : ApiResult
  deriving DecidableEq

/-- `item["id"] == item_id` for the generator expressions in the handlers;
`item_id` is the integer path segment. -/
def idMatches (d : Dict) (item_id : Int) : Bool :=
  (Dict.get d "id").pyEq (VInt item_id)

/-- `next((item for item in inventory if item["id"] == item_id), None)`. -/
def find_item (inv : List Dict) (item_id : Int) : Option Dict :=
  inv.find? fun d => idMatches d item_id

/-- `get_item` handler (app.py lines 105-114). -/
def get_item (inv : List Dict) (item_id : Int) : ApiResult :=
  match find_item inv item_id with
  | some item => .ok item
  | none => .notFound

/-- Python `max(xs, default=dflt)`. -/
def pyMax : List Int → Int → Int
  | [], dflt => dflt
  | x :: xs, _ => xs.foldl max x

/-- The ids the allocator ranges over: `[item["id"] for item in inventory]`
(every reachable record's id is an `Int`). -/
def idsOf (inv : List Dict) : List Int :=
  inv.map fun d => (Dict.get d "id").toInt

/-- `add_item` handler (app.py lines 116-141): validate, allocate
`max(ids, default=0) + 1`, build the new record, append.  `now` is
`datetime.utcnow().isoformat()`; the code appends `"Z"`. -/
def add_item (inv : List Dict) (data : Option Dict) (now : String) :
    ApiResult × List Dict :=
  let v := validate_item_data data
  if ! v.1 then (.validationError v.2, inv)
  else
    let d := data.getD []
    let new_id := pyMax (idsOf inv) 0 + 1
    let new_item : Dict :=
      [("id", VInt new_id),
       ("name", VStr (pyStrip (Dict.get d "name").toStr)),
       ("stock", Dict.get d "stock"),
       ("created_at", VStr (now ++ "Z"))]
    (.ok new_item, inv ++ [new_item])

/-- In-place mutation of the record found by `next(...)`: since `next`
returns the first id-matching element, mutating it replaces the first
id-matching position of the list. -/
def replaceFirst : List Dict → Int → Dict → List Dict
  | [], _, _ => []
  | d :: rest, item_id, newItem =>
      if idMatches d item_id then newItem :: rest
      else d :: replaceFirst rest item_id newItem

/-- `update_item` handler (app.py lines 143-176): find first (404 if
absent), then validate (400), then mutate `name`, `stock`, `updated_at` in
place. -/
def update_item (inv : List Dict) (item_id : Int) (data : Option Dict)
    (now : String) : ApiResult × List Dict :=
  match find_item inv item_id with
  | none => (.notFound, inv)
  | some item =>
    let v := validate_item_data data
    if ! v.1 then (.validationError v.2, inv)
    else
      let d := data.getD []
      let updated :=
        Dict.set
          (Dict.set (Dict.set item "name" (VStr (pyStrip (Dict.get d "name").toStr)))
            "stock" (Dict.get d "stock"))
          "updated_at" (VStr (now ++ "Z"))
      (.ok updated, replaceFirst inv item_id updated)

/-- Python `list.remove(x)`: drop the first element that is `x` itself
(identity, which structural equality models for the element found by the
preceding search) or compares `==` to `x`. -/
def removeFirst : List Dict → Dict → List Dict
  | [], _ => []
  | d :: rest, item =>
      if d = item then rest
      else if Dict.pyEq d item then rest
      else d :: removeFirst rest item

/-- `delete_item` handler (app.py lines 178-198): find first (404 if
absent), then `inventory.remove(item)` and return the removed record. -/
def delete_item (inv : List Dict) (item_id : Int) : ApiResult × List Dict :=
  match find_item inv item_id with
  | none => (.notFound, inv)
  | some item => (.ok item, removeFirst inv item)

/-- First seeded record (app.py line 28). -/
def laptopRec : Dict :=
  [("id", VInt 1), ("name", VStr "Laptop"), ("stock", VInt 10),
   ("created_at", VStr "2024-01-01T00:00:00Z")]

/-- Second seeded record (app.py line 29). -/
def mouseRec : Dict :=
  [("id", VInt 2), ("name", VStr "Mouse"), ("stock", VInt 50),
   ("created_at", VStr "2024-01-01T00:00:00Z")]

/-- The module-level seeded store (app.py lines 27-30). -/
def initialInventory : List Dict := [laptopRec, mouseRec]

/-- A valid example payload, used to instantiate theorems. -/
def widgetPayload : Dict := [("name", VStr "Widget"), ("stock", VInt 5)]

/-- The records of `inv` strictly before the first one whose id is
`i` (used to state frame conditions). -/
def beforeId (inv : List Dict) (i : Int) : List Dict :=
  inv.takeWhile fun d => ! idMatches d i

/-- The records of `inv` strictly after the first one whose id is `i`. -/
def afterId (inv : List Dict) (i : Int) : List Dict :=
  (inv.dropWhile fun d => ! idMatches d i).tail

/-- The record `add_item` builds for payload `d` on store `inv` at time
`now` (app.py lines 131-137). -/
def newRecord (inv : List Dict) (d : Dict) (now : String) : Dict :=
  [("id", VInt (pyMax (idsOf inv) 0 + 1)),
   ("name", VStr (pyStrip (Dict.get d "name").toStr)),
   ("stock", Dict.get d "stock"),
   ("created_at", VStr (now ++ "Z"))]

/-- The record `update_item` produces from `item` for payload `d` at time
`now` (app.py lines 166-168). -/
def updatedRecord (item : Dict) (d : Dict) (now : String) : Dict :=
  Dict.set
    (Dict.set (Dict.set item "name" (VStr (pyStrip (Dict.get d "name").toStr)))
      "stock" (Dict.get d "stock"))
    "updated_at" (VStr (now ++ "Z"))

/-- One inbound request against the store. -/
inductive Op where
  | addOp : Option Dict → String → Op
  | updateOp : Int → Option Dict → String → Op
  | deleteOp : Int → Op
  | getOp : Int → Op

/-- Dispatch one request to its handler. -/
def step (inv : List Dict) : Op → ApiResult × List Dict
  | .addOp data now => add_item inv data now
  | .updateOp i data now => update_item inv i data now
  | .deleteOp i => delete_item inv i
  | .getOp i => (get_item inv i, inv)

/-- Run a request sequence, returning the final store. -/
def run : List Dict → List Op → List Dict
  | inv, [] => inv
  | inv, op :: ops => run (step inv op).2 ops

/-- Whether a handler outcome is a success (2xx). -/
def isOk : ApiResult → Bool
  | .ok _ => true
  | _ => false

/-- Whether a request is an `add`. -/
def isAdd : Op → Bool
  | .addOp _ _ => true
  | _ => false

/-- Run a request sequence counting successful adds and deletes:
returns (final store, successful add count, successful delete count). -/
def runCount : List Dict → List Op → List Dict × Nat × Nat
  | inv, [] => (inv, 0, 0)
  | inv, op :: ops =>
    let r := step inv op
    let rest := runCount r.2 ops
    match op with
    | .addOp _ _ => (rest.1, (if isOk r.1 then 1 else 0) + rest.2.1, rest.2.2)
    | .deleteOp _ => (rest.1, rest.2.1, (if isOk r.1 then 1 else 0) + rest.2.2)
    | _ => rest

/-- Whether a record carries an integer `"id"`. -/
def hasIntId (d : Dict) : Bool :=
  match Dict.lookup d "id" with
  | some (VInt _) => true
  | _ => false

/-- Store well-formedness: every record's `"id"` is an integer, and ids are
pairwise distinct.  Holds for the seeded store and is preserved by every
handler. -/
def WfInv (inv : List Dict) : Prop :=
  (∀ d ∈ inv, hasIntId d = true) ∧
  List.Pairwise (fun a b => Dict.lookup a "id" ≠ Dict.lookup b "id") inv

instance decWfInv (inv : List Dict) : Decidable (WfInv inv) := by
  unfold WfInv
  infer_instance

/-! ### Helper lemmas about the embedded dict operations -/

theorem hasIntId_iff {d : Dict} :
    hasIntId d = true ↔ ∃ n : Int, Dict.lookup d "id" = some (VInt n) := by
  unfold hasIntId
  cases h : Dict.lookup d "id" with
  | none => simp
  | some v => cases v <;> simp

theorem Dict.lookup_set_self (d : Dict) (k : String) (v : Value) :
    Dict.lookup (Dict.set d k v) k = some v := by
  induction d with
  | nil => simp [Dict.set, Dict.lookup]
  | cons p rest ih =>
    obtain ⟨k', v'⟩ := p
    by_cases h : k' = k
    · simp [Dict.set, h, Dict.lookup]
    · simp [Dict.set, h, Dict.lookup, ih]

theorem Dict.lookup_set_ne (d : Dict) {k k' : String} (v : Value) (h : k' ≠ k) :
    Dict.lookup (Dict.set d k v) k' = Dict.lookup d k' := by
  induction d with
  | nil =>
    simp only [Dict.set, Dict.lookup]
    rw [if_neg (fun hk => h hk.symm)]
  | cons p rest ih =>
    obtain ⟨k'', v''⟩ := p
    by_cases hk : k'' = k
    · subst hk
      simp only [Dict.set, if_pos rfl, Dict.lookup]
      rw [if_neg (fun hk => h hk.symm), if_neg (fun hk => h hk.symm)]
    · simp only [Dict.set, if_neg hk, Dict.lookup]
      by_cases hk' : k'' = k'
      · simp [hk']
      · simp [hk', ih]

theorem Dict.lookup_mem {d : Dict} {k : String} {v : Value}
    (h : Dict.lookup d k = some v) : (k, v) ∈ d := by
  induction d with
  | nil => simp [Dict.lookup] at h
  | cons p rest ih =>
    obtain ⟨k', v'⟩ := p
    by_cases hk : k' = k
    · subst hk
      simp only [Dict.lookup, if_true] at h
      injection h with h
      subst h
      exact List.mem_cons_self _ _
    · simp only [Dict.lookup, if_neg hk] at h
      exact List.mem_cons_of_mem _ (ih h)

theorem foldl_max_init_le (xs : List Int) (a : Int) : a ≤ xs.foldl max a := by
  induction xs generalizing a with
  | nil => simp
  | cons x xs ih =>
    exact le_trans (le_max_left a x) (ih (max a x))

theorem le_foldl_max_of_mem {xs : List Int} {x : Int} (h : x ∈ xs) (a : Int) :
    x ≤ xs.foldl max a := by
  induction xs generalizing a with
  | nil => cases h
  | cons y ys ih =>
    simp only [List.foldl]
    rcases List.mem_cons.1 h with rfl | h'
    · exact le_trans (le_max_right a x) (foldl_max_init_le ys (max a x))
    · exact ih h' (max a y)

theorem le_pyMax_of_mem {xs : List Int} {x : Int} (h : x ∈ xs) (dflt : Int) :
    x ≤ pyMax xs dflt := by
  cases xs with
  | nil => cases h
  | cons y ys =>
    simp only [pyMax]
    rcases List.mem_cons.1 h with rfl | h'
    · exact foldl_max_init_le ys x
    · exact le_foldl_max_of_mem h' y

theorem idMatches_iff {d : Dict} {n : Int}
    (hd : Dict.lookup d "id" = some (VInt n)) {i : Int} :
    idMatches d i = true ↔ n = i := by
  simp [idMatches, Dict.get, hd, Value.pyEq]

theorem pyEq_lookup_id {a b : Dict} {n m : Int}
    (ha : Dict.lookup a "id" = some (VInt n))
    (hb : Dict.lookup b "id" = some (VInt m))
    (h : Dict.pyEq a b = true) : n = m := by
  have hmem : ("id", VInt n) ∈ a := Dict.lookup_mem ha
  have hsub : Dict.subEq a b = true := by
    rw [Dict.pyEq, Bool.and_eq_true] at h
    exact h.1
  have hall := (List.all_eq_true.1 hsub) ("id", VInt n) hmem
  rw [hb] at hall
  simpa [Value.pyEq] using hall

theorem replaceFirst_decomp {inv : List Dict} {i : Int} {item : Dict}
    (h : find_item inv i = some item) :
    ∃ pre post, inv = pre ++ item :: post ∧
      (∀ d ∈ pre, idMatches d i = false) ∧
      ∀ u, replaceFirst inv i u = pre ++ u :: post := by
  induction inv with
  | nil => simp [find_item] at h
  | cons d rest ih =>
    cases hd : idMatches d i with
    | true =>
      have hde : d = item := by
        simp only [find_item, List.find?, hd] at h
        exact Option.some.inj h
      subst hde
      exact ⟨[], rest, rfl, by simp, fun u => by simp [replaceFirst, hd]⟩
    | false =>
      have h' : find_item rest i = some item := by
        simpa only [find_item, List.find?, hd] using h
      obtain ⟨pre, post, he, hpre, hrep⟩ := ih h'
      refine ⟨d :: pre, post, by simp [he], ?_, ?_⟩
      · intro e he'
        rcases List.mem_cons.1 he' with rfl | he'
        · exact hd
        · exact hpre e he'
      · intro u
        simp only [replaceFirst, hd, if_false, Bool.false_eq_true, hrep u,
          List.cons_append]

theorem replaceFirst_length (inv : List Dict) (i : Int) (u : Dict) :
    (replaceFirst inv i u).length = inv.length := by
  induction inv with
  | nil => rfl
  | cons d rest ih =>
    by_cases hd : idMatches d i = true
    · simp [replaceFirst, hd]
    · simp [replaceFirst, hd, ih]

theorem mem_replaceFirst {inv : List Dict} {i : Int} {u d : Dict}
    (h : d ∈ replaceFirst inv i u) : d ∈ inv ∨ d = u := by
  induction inv with
  | nil => simp [replaceFirst] at h
  | cons e rest ih =>
    by_cases he : idMatches e i = true
    · simp only [replaceFirst, if_pos he] at h
      rcases List.mem_cons.1 h with rfl | h
      · exact Or.inr rfl
      · exact Or.inl (List.mem_cons_of_mem _ h)
    · simp only [replaceFirst, if_neg he] at h
      rcases List.mem_cons.1 h with rfl | h
      · exact Or.inl (List.mem_cons_self _ _)
      · rcases ih h with h' | h'
        · exact Or.inl (List.mem_cons_of_mem _ h')
        · exact Or.inr h'

theorem removeFirst_length {inv : List Dict} {item : Dict} (h : item ∈ inv) :
    (removeFirst inv item).length + 1 = inv.length := by
  induction inv with
  | nil => cases h
  | cons d rest ih =>
    by_cases hd : d = item
    · simp [removeFirst, hd]
    · cases hp : Dict.pyEq d item with
      | true => simp [removeFirst, hd, hp]
      | false =>
        have hmem : item ∈ rest := by
          rcases List.mem_cons.1 h with rfl | h'
          · exact absurd rfl hd
          · exact h'
        simp only [removeFirst, if_neg hd, hp, Bool.false_eq_true, if_false,
          List.length_cons]
        rw [← ih hmem]

theorem removeFirst_sublist (inv : List Dict) (item : Dict) :
    List.Sublist (removeFirst inv item) inv := by
  induction inv with
  | nil => simp [removeFirst]
  | cons d rest ih =>
    by_cases hd : d = item
    · simp only [removeFirst, if_pos hd]
      exact List.sublist_cons_self d rest
    · cases hp : Dict.pyEq d item with
      | true =>
        simp only [removeFirst, if_neg hd, hp, if_true]
        exact List.sublist_cons_self d rest
      | false =>
        simp only [removeFirst, if_neg hd, hp, Bool.false_eq_true, if_false]
        exact List.Sublist.cons₂ d ih

theorem wf_sublist {l₁ l₂ : List Dict} (h : List.Sublist l₁ l₂) (hwf : WfInv l₂) :
    WfInv l₁ :=
  ⟨fun d hd => hwf.1 d (h.subset hd), hwf.2.sublist h⟩

theorem find_removeFirst_none {inv : List Dict} {i : Int} {item : Dict}
    (hwf : WfInv inv) (h : find_item inv i = some item) :
    find_item (removeFirst inv item) i = none := by
  induction inv with
  | nil => simp [find_item] at h
  | cons d rest ih =>
    obtain ⟨hids, hpw⟩ := hwf
    obtain ⟨n, hdn⟩ := hasIntId_iff.1 (hids d (List.mem_cons_self _ _))
    cases hd : idMatches d i with
    | true =>
      have hde : d = item := by
        simp only [find_item, List.find?, hd] at h
        exact Option.some.inj h
      subst hde
      have hrm : removeFirst (d :: rest) d = rest := by simp [removeFirst]
      rw [hrm, find_item, List.find?_eq_none]
      intro e he hmatch
      obtain ⟨m, hem⟩ := hasIntId_iff.1 (hids e (List.mem_cons_of_mem _ he))
      have hne : Dict.lookup d "id" ≠ Dict.lookup e "id" :=
        (List.pairwise_cons.1 hpw).1 e he
      have hni : n = i := (idMatches_iff hdn).1 hd
      have hmi : m = i := (idMatches_iff hem).1 hmatch
      exact hne (by rw [hdn, hem, hni, hmi])
    | false =>
      have h' : find_item rest i = some item := by
        simpa only [find_item, List.find?, hd] using h
      have hmem : item ∈ rest := List.mem_of_find?_eq_some h'
      have hmatch_item : idMatches item i = true :=
        List.find?_some (p := fun e => idMatches e i) (a := item) h'
      have hne1 : d ≠ item := by
        rintro rfl
        rw [hmatch_item] at hd
        exact absurd hd (by simp)
      have hne2 : Dict.pyEq d item = false := by
        cases hp : Dict.pyEq d item with
        | false => rfl
        | true =>
          obtain ⟨m, him⟩ :=
            hasIntId_iff.1 (hids item (List.mem_cons_of_mem _ hmem))
          have hnm : n = m := pyEq_lookup_id hdn him hp
          have : idMatches d i = true :=
            (idMatches_iff hdn).2 (hnm.trans ((idMatches_iff him).1 hmatch_item))
          rw [this] at hd
          exact absurd hd (by simp)
      have hrm : removeFirst (d :: rest) item = d :: removeFirst rest item := by
        simp [removeFirst, hne1, hne2]
      rw [hrm]
      have hres := ih ⟨fun e he => hids e (List.mem_cons_of_mem _ he),
        (List.pairwise_cons.1 hpw).2⟩ h'
      simpa only [find_item, List.find?, hd] using hres

theorem find_item_eq_none {inv : List Dict} {i : Int} :
    find_item inv i = none ↔ ∀ d ∈ inv, idMatches d i = false := by
  rw [find_item, List.find?_eq_none]
  constructor
  · intro h d hd
    have := h d hd
    simpa using this
  · intro h d hd
    simp [h d hd]

theorem idMatches_congr {a b : Dict} (h : Dict.lookup a "id" = Dict.lookup b "id")
    (i : Int) : idMatches a i = idMatches b i := by
  simp [idMatches, Dict.get, h]

theorem lookup_set3_id (item : Dict) (nm st ua : Value) :
    Dict.lookup (Dict.set (Dict.set (Dict.set item "name" nm) "stock" st)
      "updated_at" ua) "id" = Dict.lookup item "id" := by
  rw [Dict.lookup_set_ne _ _ (by decide), Dict.lookup_set_ne _ _ (by decide),
    Dict.lookup_set_ne _ _ (by decide)]

theorem absent_update {inv : List Dict} {i : Int} (j : Int) (data : Option Dict)
    (now : String) (habs : find_item inv i = none) :
    find_item (update_item inv j data now).2 i = none := by
  cases hf : find_item inv j with
  | none => simpa [update_item, hf] using habs
  | some item =>
    cases hv : (validate_item_data data).1 with
    | false => simpa [update_item, hf, hv] using habs
    | true =>
      have h2 : (update_item inv j data now).2 =
          replaceFirst inv j
            (Dict.set (Dict.set
                (Dict.set item "name"
                  (VStr (pyStrip (Dict.get (data.getD []) "name").toStr)))
                "stock" (Dict.get (data.getD []) "stock"))
              "updated_at" (VStr (now ++ "Z"))) := by
        simp [update_item, hf, hv]
      rw [h2, find_item_eq_none]
      intro e he
      rcases mem_replaceFirst he with h' | h'
      · exact find_item_eq_none.1 habs e h'
      · subst h'
        have hitem : idMatches item i = false :=
          find_item_eq_none.1 habs item (List.mem_of_find?_eq_some hf)
        rw [idMatches_congr (lookup_set3_id item _ _ _) i]
        exact hitem

theorem absent_delete {inv : List Dict} {i : Int} (j : Int)
    (habs : find_item inv i = none) :
    find_item (delete_item inv j).2 i = none := by
  cases hf : find_item inv j with
  | none => simpa [delete_item, hf] using habs
  | some item =>
    have h2 : (delete_item inv j).2 = removeFirst inv item := by
      simp [delete_item, hf]
    rw [h2, find_item_eq_none]
    intro d hd
    exact find_item_eq_none.1 habs d ((removeFirst_sublist inv item).subset hd)

theorem absent_step {inv : List Dict} {i : Int} {op : Op}
    (hna : isAdd op = false) (habs : find_item inv i = none) :
    find_item (step inv op).2 i = none := by
  cases op with
  | addOp data now => simp [isAdd] at hna
  | updateOp j data now => exact absent_update j data now habs
  | deleteOp j => exact absent_delete j habs
  | getOp j => simpa [step] using habs

theorem absent_run {inv : List Dict} {i : Int} {ops : List Op}
    (habs : find_item inv i = none)
    (hna : ∀ op ∈ ops, isAdd op = false) :
    find_item (run inv ops) i = none := by
  induction ops generalizing inv with
  | nil => simpa [run] using habs
  | cons op ops ih =>
    simp only [run]
    exact ih (absent_step (hna op (List.mem_cons_self _ _)) habs)
      (fun o ho => hna o (List.mem_cons_of_mem _ ho))

theorem find_item_decomp {inv : List Dict} {i : Int} {item : Dict}
    (h : find_item inv i = some item) :
    inv = beforeId inv i ++ item :: afterId inv i ∧
      (∀ d ∈ beforeId inv i, idMatches d i = false) ∧
      ∀ u, replaceFirst inv i u = beforeId inv i ++ u :: afterId inv i := by
  induction inv with
  | nil => simp [find_item] at h
  | cons d rest ih =>
    cases hd : idMatches d i with
    | true =>
      have hde : d = item := by
        simp only [find_item, List.find?, hd] at h
        exact Option.some.inj h
      subst hde
      refine ⟨?_, ?_, ?_⟩
      · simp [beforeId, afterId, List.takeWhile_cons, List.dropWhile_cons, hd]
      · simp [beforeId, List.takeWhile_cons, hd]
      · intro u
        simp [beforeId, afterId, List.takeWhile_cons, List.dropWhile_cons, hd,
          replaceFirst]
    | false =>
      have h' : find_item rest i = some item := by
        simpa only [find_item, List.find?, hd] using h
      obtain ⟨he, hpre, hrep⟩ := ih h'
      have hb : beforeId (d :: rest) i = d :: beforeId rest i := by
        simp [beforeId, List.takeWhile_cons, hd]
      have ha : afterId (d :: rest) i = afterId rest i := by
        simp [afterId, List.dropWhile_cons, hd]
      refine ⟨?_, ?_, ?_⟩
      · rw [hb, ha, List.cons_append]
        exact congrArg (d :: ·) he
      · intro e hee
        rw [hb] at hee
        rcases List.mem_cons.1 hee with rfl | hee
        · exact hd
        · exact hpre e hee
      · intro u
        rw [hb, ha]
        simp only [replaceFirst, hd, Bool.false_eq_true, if_false,
          List.cons_append]
        rw [hrep u]

theorem lookup_updatedRecord_ne (item d0 : Dict) (now : String) {k : String}
    (h1 : k ≠ "name") (h2 : k ≠ "stock") (h3 : k ≠ "updated_at") :
    Dict.lookup (updatedRecord item d0 now) k = Dict.lookup item k := by
  simp only [updatedRecord]
  rw [Dict.lookup_set_ne _ _ h3, Dict.lookup_set_ne _ _ h2,
    Dict.lookup_set_ne _ _ h1]

theorem lookup_updatedRecord_name (item d0 : Dict) (now : String) :
    Dict.lookup (updatedRecord item d0 now) "name" =
      some (VStr (pyStrip (Dict.get d0 "name").toStr)) := by
  simp only [updatedRecord]
  rw [Dict.lookup_set_ne _ _ (by decide), Dict.lookup_set_ne _ _ (by decide),
    Dict.lookup_set_self]

theorem lookup_updatedRecord_stock (item d0 : Dict) (now : String) :
    Dict.lookup (updatedRecord item d0 now) "stock" =
      some (Dict.get d0 "stock") := by
  simp only [updatedRecord]
  rw [Dict.lookup_set_ne _ _ (by decide), Dict.lookup_set_self]

theorem lookup_updatedRecord_updated_at (item d0 : Dict) (now : String) :
    Dict.lookup (updatedRecord item d0 now) "updated_at" =
      some (VStr (now ++ "Z")) := by
  simp only [updatedRecord]
  rw [Dict.lookup_set_self]

/-! ### The claims -/

/-- **C1** (amended): on a well-formed store, once `delete(id)` succeeds,
every later `get(id)` yields NotFound as long as no `add` occurs in between.
The original claim's further promise — that a later `add` never returns the
deleted id — is false (see the counterexample): the allocator is
`max(existing ids, default 0) + 1`, so deleting the maximal id makes the
next `add` reallocate it. -/
theorem C1_deleted_id_absent_without_adds
    (inv : List Dict) (i : Int) (item : Dict) (inv₁ : List Dict) (ops : List Op)
    (hwf : WfInv inv)
    (hdel : delete_item inv i = (.ok item, inv₁))
    (hna : ∀ op ∈ ops, isAdd op = false) :
    get_item (run inv₁ ops) i = .notFound := by
  cases hf : find_item inv i with
  | none => simp [delete_item, hf] at hdel
  | some it =>
    simp only [delete_item, hf] at hdel
    injection hdel with h1 h2
    injection h1 with h1
    subst h1
    have habs : find_item inv₁ i = none := by
      rw [← h2]
      exact find_removeFirst_none hwf hf
    have hfin : find_item (run inv₁ ops) i = none := absent_run habs hna
    simp [get_item, hfin]

/-- **C1** counterexample to the claim as stated: deleting id 2 (the maximal
id) from the seeded store succeeds, and the very next valid `add` returns a
record whose id is the deleted 2. -/
theorem C1_counterexample :
    (delete_item initialInventory 2).1 = .ok mouseRec ∧
    (add_item (delete_item initialInventory 2).2 (some widgetPayload)
        "2024-06-01T00:00:00").1 =
      .ok [("id", VInt 2), ("name", VStr "Widget"), ("stock", VInt 5),
           ("created_at", VStr "2024-06-01T00:00:00Z")] := by decide

/-- **C1** witness: concrete instance of the amended theorem. -/
theorem C1_witness :
    get_item
      (run [laptopRec]
        [Op.getOp 2, Op.deleteOp 1,
         Op.updateOp 1 (some [("name", VStr "X"), ("stock", VInt 1)]) "T"]) 2 =
      .notFound :=
  C1_deleted_id_absent_without_adds initialInventory 2 mouseRec [laptopRec]
    [Op.getOp 2, Op.deleteOp 1,
     Op.updateOp 1 (some [("name", VStr "X"), ("stock", VInt 1)]) "T"]
    (by decide) (by decide) (by decide)

/-- **C2** (amended): the id returned by a successful `add` is strictly
greater than every id present in the store at the time of the call.  The
original claim — strictly greater than every id previously *returned* by
`add` — fails once the maximal record is deleted (see the counterexample). -/
theorem C2_add_id_exceeds_store
    (inv : List Dict) (data : Option Dict) (now : String) (it : Dict)
    (inv' : List Dict) (h : add_item inv data now = (.ok it, inv')) :
    ∀ d ∈ inv, (Dict.get d "id").toInt < (Dict.get it "id").toInt := by
  cases hv : (validate_item_data data).1 with
  | false => simp [add_item, hv] at h
  | true =>
    have hadd : add_item inv data now =
        (.ok (newRecord inv (data.getD []) now),
          inv ++ [newRecord inv (data.getD []) now]) := by
      simp [add_item, hv, newRecord]
    rw [hadd] at h
    injection h with h1 h2
    injection h1 with h1
    subst h1
    intro d hd
    have hid : (Dict.get (newRecord inv (data.getD []) now) "id").toInt =
        pyMax (idsOf inv) 0 + 1 := by
      simp [newRecord, Dict.get, Dict.lookup, Value.toInt]
    have hmem : (Dict.get d "id").toInt ∈ idsOf inv :=
      List.mem_map_of_mem _ hd
    have hle := le_pyMax_of_mem hmem 0
    rw [hid]
    omega

/-- **C2** counterexample to the claim as stated: two successful adds on the
same instance both return id 3 when the intervening delete removes the
maximal record, so the second returned id is not strictly greater than the
first. -/
theorem C2_counterexample :
    (add_item initialInventory (some widgetPayload) "T1").1 =
      .ok [("id", VInt 3), ("name", VStr "Widget"), ("stock", VInt 5),
           ("created_at", VStr "T1Z")] ∧
    (add_item
        (delete_item (add_item initialInventory (some widgetPayload) "T1").2
          3).2
        (some widgetPayload) "T2").1 =
      .ok [("id", VInt 3), ("name", VStr "Widget"), ("stock", VInt 5),
           ("created_at", VStr "T2Z")] := by decide

/-- **C2** witness: concrete instance of the amended theorem. -/
theorem C2_witness :
    (Dict.get laptopRec "id").toInt <
      (Dict.get (newRecord initialInventory widgetPayload "T") "id").toInt :=
  C2_add_id_exceeds_store initialInventory (some widgetPayload) "T"
    (newRecord initialInventory widgetPayload "T")
    (initialInventory ++ [newRecord initialInventory widgetPayload "T"])
    (by decide) laptopRec (by decide)

/-- **C3** (amended): `update(id, candidate)` checks existence *before*
validation.  When a record with the id exists, an invalid candidate
surfaces the validation error (HTTP 400) without touching the store; when no
record exists, the result is NotFound (HTTP 404) — not the validation error
the original claim promises — again without touching the store. -/
theorem C3_update_checks_existence_first
    (inv : List Dict) (i : Int) (data : Option Dict) (now : String)
    (item : Dict) (msg : String) :
    (find_item inv i = some item → validate_item_data data = (false, msg) →
      update_item inv i data now = (.validationError msg, inv)) ∧
    (find_item inv i = none → update_item inv i data now = (.notFound, inv)) := by
  constructor
  · intro hf hv
    simp [update_item, hf, hv]
  · intro hf
    simp [update_item, hf]

/-- **C3** counterexample to the claim as stated: id 999 does not exist and
the candidate `None` is invalid ("No data provided"), yet `update` reports
NotFound, not the validation error. -/
theorem C3_counterexample :
    validate_item_data none = (false, "No data provided") ∧
    update_item initialInventory 999 none "T" = (.notFound, initialInventory) := by
  decide

/-- **C3** witness: concrete instance of the amended theorem. -/
theorem C3_witness :
    update_item initialInventory 1 (some []) "T" =
      (.validationError "No data provided", initialInventory) :=
  (C3_update_checks_existence_first initialInventory 1 (some []) "T" laptopRec
      "No data provided").1 (by decide) (by decide)

/-- **C4**: `validate_item_data` checks the rules in the fixed order, first
failure wins, and returns exactly the specified (ok, reason) pairs: absent
or empty data, then missing `name`, then missing `stock`, then a stock that
is not a non-negative integer, then a name that is not a string or is empty
after stripping; otherwise `(true, "Valid")`. -/
theorem C4_validate_rules (d : Dict) (s v : Value) :
    validate_item_data none = (false, "No data provided") ∧
    validate_item_data (some []) = (false, "No data provided") ∧
    (d ≠ [] → Dict.contains d "name" = false →
      validate_item_data (some d) = (false, "Missing required field: name")) ∧
    (d ≠ [] → Dict.contains d "name" = true → Dict.contains d "stock" = false →
      validate_item_data (some d) = (false, "Missing required field: stock")) ∧
    (d ≠ [] → Dict.contains d "name" = true → Dict.lookup d "stock" = some s →
      (s.isInstInt = false ∨ s.toInt < 0) →
      validate_item_data (some d) =
        (false, "Stock must be a non-negative integer")) ∧
    (d ≠ [] → Dict.lookup d "name" = some v → Dict.lookup d "stock" = some s →
      s.isInstInt = true → 0 ≤ s.toInt →
      (v.isInstStr = false ∨ (pyStrip v.toStr).length = 0) →
      validate_item_data (some d) = (false, "Name must be a non-empty string")) ∧
    (d ≠ [] → Dict.lookup d "name" = some v → Dict.lookup d "stock" = some s →
      s.isInstInt = true → 0 ≤ s.toInt → v.isInstStr = true →
      (pyStrip v.toStr).length ≠ 0 →
      validate_item_data (some d) = (true, "Valid")) := by
  have hEmpty : ∀ l : List (String × Value), l ≠ [] → l.isEmpty = false := by
    intro l hl
    cases l with
    | nil => exact absurd rfl hl
    | cons a t => rfl
  refine ⟨by decide, by decide, ?_, ?_, ?_, ?_, ?_⟩
  · intro h1 h2
    simp [validate_item_data, hEmpty d h1, h2]
  · intro h1 h2 h3
    simp [validate_item_data, hEmpty d h1, h2, h3]
  · intro h1 h2 h3 h4
    have hget : Dict.get d "stock" = s := by simp [Dict.get, h3]
    have hcont : Dict.contains d "stock" = true := by simp [Dict.contains, h3]
    have hcond : (! s.isInstInt || decide (s.toInt < 0)) = true := by
      rcases h4 with h | h
      · simp [h]
      · simp [h]
    simp [validate_item_data, hEmpty d h1, h2, hcont, hget, hcond]
  · intro h1 h2 h3 h4 h5 h6
    have hgetn : Dict.get d "name" = v := by simp [Dict.get, h2]
    have hcontn : Dict.contains d "name" = true := by simp [Dict.contains, h2]
    have hgets : Dict.get d "stock" = s := by simp [Dict.get, h3]
    have hconts : Dict.contains d "stock" = true := by simp [Dict.contains, h3]
    have hcond1 : (! s.isInstInt || decide (s.toInt < 0)) = false := by
      simp [h4, not_lt.2 h5]
    have hcond2 : (! v.isInstStr || ((pyStrip v.toStr).length == 0)) = true := by
      rcases h6 with h | h
      · simp [h]
      · simp [h]
    simp [validate_item_data, hEmpty d h1, hcontn, hconts, hgetn, hgets,
      hcond1, hcond2]
  · intro h1 h2 h3 h4 h5 h6 h7
    have hgetn : Dict.get d "name" = v := by simp [Dict.get, h2]
    have hcontn : Dict.contains d "name" = true := by simp [Dict.contains, h2]
    have hgets : Dict.get d "stock" = s := by simp [Dict.get, h3]
    have hconts : Dict.contains d "stock" = true := by simp [Dict.contains, h3]
    have hcond1 : (! s.isInstInt || decide (s.toInt < 0)) = false := by
      simp [h4, not_lt.2 h5]
    have hcond2 : (! v.isInstStr || ((pyStrip v.toStr).length == 0)) = false := by
      simp [h6, h7]
    simp [validate_item_data, hEmpty d h1, hcontn, hconts, hgetn, hgets,
      hcond1, hcond2]

/-- **C4** witness: concrete instance (the spec's own test vector for a
negative stock). -/
theorem C4_witness :
    validate_item_data (some [("name", VStr "x"), ("stock", VInt (-1))]) =
      (false, "Stock must be a non-negative integer") :=
  (C4_validate_rules [("name", VStr "x"), ("stock", VInt (-1))] (VInt (-1))
      VNull).2.2.2.2.1 (by decide) (by decide) (by decide)
    (Or.inr (by decide))

/-- **C5**: a successful `update(id, candidate)` on an existing id replaces
only `name` (stripped) and `stock` and sets `updated_at`; the record's `id`
and `created_at`, and every other record in the store (those before and
after the updated position), are unchanged. -/
theorem C5_update_frame
    (inv : List Dict) (i : Int) (data : Option Dict) (now : String)
    (item : Dict)
    (hfind : find_item inv i = some item)
    (hval : validate_item_data data = (true, "Valid")) :
    inv = beforeId inv i ++ item :: afterId inv i ∧
    update_item inv i data now =
      (.ok (updatedRecord item (data.getD []) now),
        beforeId inv i ++ updatedRecord item (data.getD []) now ::
          afterId inv i) ∧
    Dict.lookup (updatedRecord item (data.getD []) now) "id" =
      Dict.lookup item "id" ∧
    Dict.lookup (updatedRecord item (data.getD []) now) "created_at" =
      Dict.lookup item "created_at" ∧
    Dict.lookup (updatedRecord item (data.getD []) now) "name" =
      some (VStr (pyStrip (Dict.get (data.getD []) "name").toStr)) ∧
    Dict.lookup (updatedRecord item (data.getD []) now) "stock" =
      some (Dict.get (data.getD []) "stock") ∧
    Dict.lookup (updatedRecord item (data.getD []) now) "updated_at" =
      some (VStr (now ++ "Z")) := by
  obtain ⟨he, hpre, hrep⟩ := find_item_decomp hfind
  refine ⟨he, ?_, ?_, ?_, ?_, ?_, ?_⟩
  · have hu : update_item inv i data now =
        (.ok (updatedRecord item (data.getD []) now),
          replaceFirst inv i (updatedRecord item (data.getD []) now)) := by
      simp [update_item, hfind, hval, updatedRecord]
    rw [hu, hrep]
  · exact lookup_updatedRecord_ne item _ now (by decide) (by decide) (by decide)
  · exact lookup_updatedRecord_ne item _ now (by decide) (by decide) (by decide)
  · exact lookup_updatedRecord_name item _ now
  · exact lookup_updatedRecord_stock item _ now
  · exact lookup_updatedRecord_updated_at item _ now

/-- **C5** witness: concrete instance of the theorem. -/
theorem C5_witness :
    initialInventory =
      beforeId initialInventory 1 ++ laptopRec :: afterId initialInventory 1 ∧
    update_item initialInventory 1
        (some [("name", VStr " L2 "), ("stock", VInt 20)]) "T" =
      (.ok (updatedRecord laptopRec [("name", VStr " L2 "), ("stock", VInt 20)]
          "T"),
        beforeId initialInventory 1 ++
          updatedRecord laptopRec [("name", VStr " L2 "), ("stock", VInt 20)]
            "T" :: afterId initialInventory 1) ∧
    Dict.lookup (updatedRecord laptopRec
        [("name", VStr " L2 "), ("stock", VInt 20)] "T") "id" =
      Dict.lookup laptopRec "id" ∧
    Dict.lookup (updatedRecord laptopRec
        [("name", VStr " L2 "), ("stock", VInt 20)] "T") "created_at" =
      Dict.lookup laptopRec "created_at" ∧
    Dict.lookup (updatedRecord laptopRec
        [("name", VStr " L2 "), ("stock", VInt 20)] "T") "name" =
      some (VStr (pyStrip (Dict.get [("name", VStr " L2 "),
        ("stock", VInt 20)] "name").toStr)) ∧
    Dict.lookup (updatedRecord laptopRec
        [("name", VStr " L2 "), ("stock", VInt 20)] "T") "stock" =
      some (Dict.get [("name", VStr " L2 "), ("stock", VInt 20)] "stock") ∧
    Dict.lookup (updatedRecord laptopRec
        [("name", VStr " L2 "), ("stock", VInt 20)] "T") "updated_at" =
      some (VStr ("T" ++ "Z")) :=
  C5_update_frame initialInventory 1
    (some [("name", VStr " L2 "), ("stock", VInt 20)]) "T" laptopRec
    (by decide) (by decide)

/-- **C6**: a successful `add` allocates `id = max(existing ids, default 0)
+ 1`, stores the stripped name, the stock as given, a fresh `created_at`
and no `updated_at`, appends the record at the end, returns it, and an
immediate `get` of the new id returns that same record. -/
theorem C6_add_allocates_and_appends
    (inv : List Dict) (data : Option Dict) (now : String)
    (hids : ∀ d ∈ inv, hasIntId d = true)
    (hval : validate_item_data data = (true, "Valid")) :
    add_item inv data now =
      (.ok (newRecord inv (data.getD []) now),
        inv ++ [newRecord inv (data.getD []) now]) ∧
    Dict.lookup (newRecord inv (data.getD []) now) "id" =
      some (VInt (pyMax (idsOf inv) 0 + 1)) ∧
    Dict.lookup (newRecord inv (data.getD []) now) "name" =
      some (VStr (pyStrip (Dict.get (data.getD []) "name").toStr)) ∧
    Dict.lookup (newRecord inv (data.getD []) now) "stock" =
      some (Dict.get (data.getD []) "stock") ∧
    Dict.lookup (newRecord inv (data.getD []) now) "created_at" =
      some (VStr (now ++ "Z")) ∧
    Dict.contains (newRecord inv (data.getD []) now) "updated_at" = false ∧
    get_item (inv ++ [newRecord inv (data.getD []) now])
      (pyMax (idsOf inv) 0 + 1) = .ok (newRecord inv (data.getD []) now) := by
  refine ⟨?_, ?_, ?_, ?_, ?_, ?_, ?_⟩
  · simp [add_item, hval, newRecord]
  · simp [newRecord, Dict.lookup]
  · simp [newRecord, Dict.lookup]
  · simp [newRecord, Dict.lookup]
  · simp [newRecord, Dict.lookup]
  · simp [newRecord, Dict.contains, Dict.lookup]
  · have hnone : find_item inv (pyMax (idsOf inv) 0 + 1) = none := by
      rw [find_item_eq_none]
      intro e he
      obtain ⟨n, hn⟩ := hasIntId_iff.1 (hids e he)
      have hmem : (Dict.get e "id").toInt ∈ idsOf inv :=
        List.mem_map_of_mem _ he
      have hten : (Dict.get e "id").toInt = n := by
        simp [Dict.get, hn, Value.toInt]
      rw [hten] at hmem
      have hle := le_pyMax_of_mem hmem 0
      cases hm : idMatches e (pyMax (idsOf inv) 0 + 1) with
      | false => rfl
      | true =>
        have := (idMatches_iff hn).1 hm
        omega
    have hfind : find_item (inv ++ [newRecord inv (data.getD []) now])
        (pyMax (idsOf inv) 0 + 1) = some (newRecord inv (data.getD []) now) := by
      rw [find_item, List.find?_append,
        show List.find? (fun e => idMatches e (pyMax (idsOf inv) 0 + 1)) inv =
          none from hnone]
      simp [List.find?, idMatches, newRecord, Dict.get, Dict.lookup,
        Value.pyEq]
    simp [get_item, hfind]

/-- **C6** witness: concrete instance of the theorem. -/
theorem C6_witness :
    add_item initialInventory (some widgetPayload) "T" =
      (.ok (newRecord initialInventory widgetPayload "T"),
        initialInventory ++ [newRecord initialInventory widgetPayload "T"]) ∧
    Dict.lookup (newRecord initialInventory widgetPayload "T") "id" =
      some (VInt (pyMax (idsOf initialInventory) 0 + 1)) ∧
    Dict.lookup (newRecord initialInventory widgetPayload "T") "name" =
      some (VStr (pyStrip (Dict.get widgetPayload "name").toStr)) ∧
    Dict.lookup (newRecord initialInventory widgetPayload "T") "stock" =
      some (Dict.get widgetPayload "stock") ∧
    Dict.lookup (newRecord initialInventory widgetPayload "T") "created_at" =
      some (VStr ("T" ++ "Z")) ∧
    Dict.contains (newRecord initialInventory widgetPayload "T") "updated_at" =
      false ∧
    get_item (initialInventory ++ [newRecord initialInventory widgetPayload "T"])
      (pyMax (idsOf initialInventory) 0 + 1) =
      .ok (newRecord initialInventory widgetPayload "T") :=
  C6_add_allocates_and_appends initialInventory (some widgetPayload) "T"
    (by decide) (by decide)

/-- **C7** (amended): at every observation point, the store's length plus
the number of successful deletes equals the *initial* length plus the number
of successful adds.  The original claim (length = adds − deletes) fails on
the code's instance because the module-level store is seeded with two
records: see the counterexample. -/
theorem C7_length_conservation (inv : List Dict) (ops : List Op) :
    (runCount inv ops).1.length + (runCount inv ops).2.2 =
      inv.length + (runCount inv ops).2.1 := by
  induction ops generalizing inv with
  | nil => simp [runCount]
  | cons op ops ih =>
    cases op with
    | addOp data now =>
      cases hv : (validate_item_data data).1 with
      | false =>
        have hstep : step inv (Op.addOp data now) =
            (.validationError (validate_item_data data).2, inv) := by
          simp [step, add_item, hv]
        simp only [runCount, hstep, isOk]
        have := ih inv
        simp only [Bool.false_eq_true, if_false]
        omega
      | true =>
        have hstep : step inv (Op.addOp data now) =
            (.ok (newRecord inv (data.getD []) now),
              inv ++ [newRecord inv (data.getD []) now]) := by
          simp [step, add_item, hv, newRecord]
        simp only [runCount, hstep, isOk]
        have := ih (inv ++ [newRecord inv (data.getD []) now])
        simp only [List.length_append, List.length_cons, List.length_nil,
          if_true] at this ⊢
        omega
    | updateOp j data now =>
      have hlen : (step inv (Op.updateOp j data now)).2.length = inv.length := by
        cases hf : find_item inv j with
        | none => simp [step, update_item, hf]
        | some item =>
          cases hv : (validate_item_data data).1 with
          | false => simp [step, update_item, hf, hv]
          | true => simp [step, update_item, hf, hv, replaceFirst_length]
      simp only [runCount]
      rw [← hlen]
      exact ih _
    | deleteOp j =>
      cases hf : find_item inv j with
      | none =>
        have hstep : step inv (Op.deleteOp j) = (.notFound, inv) := by
          simp [step, delete_item, hf]
        simp only [runCount, hstep, isOk]
        have := ih inv
        simp only [Bool.false_eq_true, if_false]
        omega
      | some item =>
        have hstep : step inv (Op.deleteOp j) =
            (.ok item, removeFirst inv item) := by
          simp [step, delete_item, hf]
        have hmem : item ∈ inv := List.mem_of_find?_eq_some hf
        have hlen := removeFirst_length hmem
        simp only [runCount, hstep, isOk, if_true]
        have := ih (removeFirst inv item)
        omega
    | getOp j =>
      simp only [runCount, step]
      exact ih inv

/-- **C7** counterexample to the claim as stated: on the code's seeded
store, with no operations performed, `list()` has length 2 while the count
of successful adds minus successful deletes is 0. -/
theorem C7_counterexample :
    (runCount initialInventory []).1.length = 2 ∧
    (runCount initialInventory []).2.1 = 0 ∧
    (runCount initialInventory []).2.2 = 0 ∧
    (runCount initialInventory []).1.length ≠
      (runCount initialInventory []).2.1 - (runCount initialInventory []).2.2 := by
  decide

/-- **C8**: every failing operation leaves the store unchanged: `get`,
`update` and `delete` on a nonexistent id report NotFound without side
effects, and `add` (or `update`) with an invalid candidate rejects before
any mutation. -/
theorem C8_failed_operations_leave_store_unchanged
    (inv : List Dict) (i : Int) (data : Option Dict) (now : String)
    (msg : String) :
    (find_item inv i = none →
      get_item inv i = .notFound ∧
      update_item inv i data now = (.notFound, inv) ∧
      delete_item inv i = (.notFound, inv)) ∧
    (validate_item_data data = (false, msg) →
      add_item inv data now = (.validationError msg, inv) ∧
      (update_item inv i data now).2 = inv) := by
  constructor
  · intro hf
    exact ⟨by simp [get_item, hf], by simp [update_item, hf],
      by simp [delete_item, hf]⟩
  · intro hv
    refine ⟨by simp [add_item, hv], ?_⟩
    cases hf : find_item inv i with
    | none => simp [update_item, hf]
    | some item => simp [update_item, hf, hv]

/-- **C8** witness: concrete instances of both branches. -/
theorem C8_witness :
    update_item initialInventory 999 (some widgetPayload) "T" =
      (.notFound, initialInventory) ∧
    add_item initialInventory (some []) "T" =
      (.validationError "No data provided", initialInventory) :=
  ⟨((C8_failed_operations_leave_store_unchanged initialInventory 999
      (some widgetPayload) "T" "m").1 (by decide)).2.1,
   ((C8_failed_operations_leave_store_unchanged initialInventory 999
      (some []) "T" "No data provided").2 (by decide)).1⟩

/-- **C10**: a successful `add` stores a record with exactly the fields
`id`, `name`, `stock`, `created_at`; any extra fields in the candidate are
accepted by validation but never appear in the stored record. -/
theorem C10_stored_record_has_exactly_four_fields
    (inv : List Dict) (data : Option Dict) (now : String) (it : Dict)
    (inv' : List Dict) (h : add_item inv data now = (.ok it, inv')) :
    it.map Prod.fst = ["id", "name", "stock", "created_at"] ∧
    ∀ k : String, k ≠ "id" → k ≠ "name" → k ≠ "stock" → k ≠ "created_at" →
      Dict.contains it k = false := by
  cases hv : (validate_item_data data).1 with
  | false => simp [add_item, hv] at h
  | true =>
    have hadd : add_item inv data now =
        (.ok (newRecord inv (data.getD []) now),
          inv ++ [newRecord inv (data.getD []) now]) := by
      simp [add_item, hv, newRecord]
    rw [hadd] at h
    injection h with h1 h2
    injection h1 with h1
    subst h1
    constructor
    · simp [newRecord]
    · intro k hk1 hk2 hk3 hk4
      simp [newRecord, Dict.contains, Dict.lookup, Ne.symm hk1, Ne.symm hk2,
        Ne.symm hk3, Ne.symm hk4]

/-- **C10** witness: a payload with an extra `color` field passes
validation, yet the stored record has only the four fields and no
`color`. -/
theorem C10_witness :
    validate_item_data (some [("name", VStr "Widget"), ("stock", VInt 5),
      ("color", VStr "red")]) = (true, "Valid") ∧
    (newRecord initialInventory [("name", VStr "Widget"), ("stock", VInt 5),
        ("color", VStr "red")] "T").map Prod.fst =
      ["id", "name", "stock", "created_at"] ∧
    Dict.contains (newRecord initialInventory [("name", VStr "Widget"),
      ("stock", VInt 5), ("color", VStr "red")] "T") "color" = false :=
  ⟨by decide,
   (C10_stored_record_has_exactly_four_fields initialInventory
      (some [("name", VStr "Widget"), ("stock", VInt 5),
        ("color", VStr "red")]) "T"
      (newRecord initialInventory [("name", VStr "Widget"), ("stock", VInt 5),
        ("color", VStr "red")] "T")
      (initialInventory ++ [newRecord initialInventory
        [("name", VStr "Widget"), ("stock", VInt 5),
          ("color", VStr "red")] "T"]) (by decide)).1,
   (C10_stored_record_has_exactly_four_fields initialInventory
      (some [("name", VStr "Widget"), ("stock", VInt 5),
        ("color", VStr "red")]) "T"
      (newRecord initialInventory [("name", VStr "Widget"), ("stock", VInt 5),
        ("color", VStr "red")] "T")
      (initialInventory ++ [newRecord initialInventory
        [("name", VStr "Widget"), ("stock", VInt 5),
          ("color", VStr "red")] "T"]) (by decide)).2 "color"
     (by decide) (by decide) (by decide) (by decide)⟩

example : validate_item_data (some []) = (false, "No data provided") := by decide
example : validate_item_data (some [("stock", VInt 5)]) =
    (false, "Missing required field: name") := by decide
example : validate_item_data (some [("name", VStr "x")]) =
    (false, "Missing required field: stock") := by decide
example : validate_item_data (some [("name", VStr "x"), ("stock", VInt (-1))]) =
    (false, "Stock must be a non-negative integer") := by decide
example : validate_item_data (some [("name", VStr "  "), ("stock", VInt 5)]) =
    (false, "Name must be a non-empty string") := by decide
example : validate_item_data (some [("name", VStr "Widget"), ("stock", VInt 5)]) =
    (true, "Valid") := by decide

example :
    (delete_item initialInventory 2).1 =
      .ok [("id", VInt 2), ("name", VStr "Mouse"), ("stock", VInt 50),
           ("created_at", VStr "2024-01-01T00:00:00Z")] := by decide

example :
    (add_item (delete_item initialInventory 2).2
        (some [("name", VStr "Widget"), ("stock", VInt 5)]) "T").1 =
      .ok [("id", VInt 2), ("name", VStr "Widget"), ("stock", VInt 5),
           ("created_at", VStr "TZ")] := by decide

end Inventory
